import Mathlib

/-!
Verification of the x-scraper crawl-and-extract core (src/main.py).

This file gives a shallow embedding of the parts of `src/main.py` that the
specification's claims are about:

* `convert_to_int` — the metric normalizer (main.py lines 75-103).  Python's
  `float()` on the numeric portion is modelled by exact decimal parsing into a
  scaled integer (mantissa, number of fractional digits); `int(x)` on the
  scaled product is truncation toward zero (`Int.tdiv`).  Exponent forms,
  `inf`/`nan`, and underscore digit separators accepted by Python's `float()`
  are outside the model, as is binary floating-point rounding; every concrete
  input used in a theorem below is exact in double precision, so the modelled
  value agrees with the Python value there.
* `parse_post` — the per-post extractor with its bounded retry loop
  (main.py lines 105-244).  Node reads are modelled as an oracle giving, per
  attempt, either a staleness-class exception (NoSuchElementException /
  StaleElementReferenceException), an unexpected exception, or the raw data
  read from the node; the metric-span selection logic (lines 171-215) is
  embedded directly.
* the deduplicating accumulator inlined in `scrape_buzzed_posts`
  (main.py lines 339-365), as `offerPost` / `processArticles`.
* the scroll/patience/termination loop of `scrape_buzzed_posts`
  (main.py lines 313-405), as `crawlIter` / `crawlGo` / `scrapeLoop`, driven
  by a sequence of browser responses (article snapshot and document height
  per scroll iteration).
* the try/except/finally resource handling of `scrape_buzzed_posts`
  (main.py lines 303-418), as `scrape_session`.
-/

/-! ## Character helpers -/

/-- The uppercase Latin letters; the possible non-identity outputs of
`Char.toUpper` (Python `str.upper` restricted to ASCII, as used by
`convert_to_int`). -/
def upperChars : List Char :=
  ['A', 'B', 'C', 'D', 'E', 'F', 'G', 'H', 'I', 'J', 'K', 'L', 'M',
   'N', 'O', 'P', 'Q', 'R', 'S', 'T', 'U', 'V', 'W', 'X', 'Y', 'Z']

theorem toUpper_eq_or_upper (c : Char) : c.toUpper = c ∨ c.toUpper ∈ upperChars := by
  by_cases h : c.toNat ≥ 97 ∧ c.toNat ≤ 122
  · right
    have he : c.toUpper = Char.ofNat (c.toNat - 32) := by
      unfold Char.toUpper
      exact if_pos h
    rw [he]
    obtain ⟨h1, h2⟩ := h
    generalize hm : c.toNat - 32 = m
    have hb1 : 65 ≤ m := by omega
    have hb2 : m ≤ 90 := by omega
    interval_cases m <;> decide

  · left
    unfold Char.toUpper
    exact if_neg h

theorem mem_upperChars_ne_minus {d : Char} (h : d ∈ upperChars) : d ≠ '-' := by
  fin_cases h <;> decide

theorem mem_upperChars_notDigit {d : Char} (h : d ∈ upperChars) : d.isDigit = false := by
  fin_cases h <;> decide

theorem toUpper_minus {c : Char} (h : c.toUpper = '-') : c = '-' := by
  rcases toUpper_eq_or_upper c with h1 | h1
  · rw [h1] at h; exact h
  · exact absurd h (mem_upperChars_ne_minus h1)

theorem toUpper_digit {c : Char} (h : c.isDigit = false) : c.toUpper.isDigit = false := by
  rcases toUpper_eq_or_upper c with h1 | h1
  · rw [h1]; exact h
  · exact mem_upperChars_notDigit h1

theorem char_toNat_inj {a b : Char} (h : a.toNat = b.toNat) : a = b :=
  Char.ext (UInt32.ext h)

theorem ofNat_toNat_range (m : Nat) (h1 : 65 ≤ m) (h2 : m ≤ 90) :
    (Char.ofNat m).toNat = m := by
  interval_cases m <;> decide

theorem toUpper_ne_i {c : Char} (h : c ≠ 'i') : c.toUpper ≠ 'i' := by
  rcases toUpper_eq_or_upper c with h1 | h1
  · rw [h1]; exact h
  · intro he
    rw [he] at h1
    exact absurd h1 (by decide)

theorem toUpper_eq_I {c : Char} (h : c.toUpper = 'I') : c = 'i' ∨ c = 'I' := by
  by_cases hr : c.toNat ≥ 97 ∧ c.toNat ≤ 122
  · left
    have he : c.toUpper = Char.ofNat (c.toNat - 32) := by
      unfold Char.toUpper
      exact if_pos hr
    rw [he] at h
    have h73 : (Char.ofNat (c.toNat - 32)).toNat = 73 := by rw [h]; decide
    rw [ofNat_toNat_range (c.toNat - 32) (by omega) (by omega)] at h73
    apply char_toNat_inj
    show c.toNat = 105
    omega
  · right
    have he : c.toUpper = c := by
      unfold Char.toUpper
      exact if_neg hr
    rw [← he, h]

/-- Python `str.strip()`: drop leading and trailing whitespace. -/
def trimChars (cs : List Char) : List Char :=
  ((cs.dropWhile Char.isWhitespace).reverse.dropWhile Char.isWhitespace).reverse

/-! ## Metric normalizer: convert_to_int (main.py lines 75-103) -/

/-- Value of a string of decimal digit characters. -/
def natOfDigits (cs : List Char) : Nat :=
  cs.foldl (fun a c => a * 10 + (c.toNat - 48)) 0

/-- Model of Python `float()` on an unsigned decimal literal: digit characters
with at most one decimal point and at least one digit.  The value is returned
exactly, as an unsigned mantissa together with the number of fractional
digits (value = mantissa / 10 ^ fracLen).  `none` models `float()` raising
`ValueError`. -/
def decValue (cs : List Char) : Option (Nat × Nat) :=
  if (∀ c ∈ cs, c.isDigit = true ∨ c = '.') ∧ cs.count '.' ≤ 1 ∧ (∃ c ∈ cs, c.isDigit = true) then
    let ip := cs.takeWhile (fun c => c ≠ '.')
    let fp := (cs.dropWhile (fun c => c ≠ '.')).drop 1
    some (natOfDigits ip * 10 ^ fp.length + natOfDigits fp, fp.length)
  else none

/-- A value of Python `float()` relevant to the normalizer: a finite decimal
(signed mantissa and number of fractional digits, value = m / 10 ^ k), an
infinity, or NaN. -/
inductive PyFloatVal
  | finite (m : Int) (k : Nat)
  | infinite (neg : Bool)
  | nan
deriving DecidableEq

/-- Case-insensitive character-list match: each character must equal the
lowercase or the uppercase form in the pattern. -/
def matchCI : List Char → List (Char × Char) → Bool
  | [], [] => true
  | a :: as, p :: ps => (a = p.1 || a = p.2) && matchCI as ps
  | _, _ => false

/-- Python `float()` accepts `inf` and `infinity` in any letter case. -/
def infLit (cs : List Char) : Bool :=
  matchCI cs [('i', 'I'), ('n', 'N'), ('f', 'F')] ||
    matchCI cs
      [('i', 'I'), ('n', 'N'), ('f', 'F'), ('i', 'I'), ('n', 'N'), ('i', 'I'), ('t', 'T'),
        ('y', 'Y')]

/-- Python `float()` accepts `nan` in any letter case. -/
def nanLit (cs : List Char) : Bool :=
  matchCI cs [('n', 'N'), ('a', 'A'), ('n', 'N')]

/-- The smallest real magnitude that IEEE-754 double rounding
(round-to-nearest-even, as in CPython's string-to-float conversion and float
multiplication) sends to infinity: the midpoint between the largest finite
double and 2 ^ 1024. -/
def overflowBound : Nat := 2 ^ 1024 - 2 ^ 970

/-- Python `float()` after the sign: an `inf`/`infinity` literal gives an
infinity, `nan` gives NaN, an unparseable body raises `ValueError` (`none`),
and a decimal body gives its exact value, saturated to infinity at the
double-overflow bound. -/
def pyFloatBody (cs : List Char) (neg : Bool) : Option PyFloatVal :=
  if infLit cs then some (PyFloatVal.infinite neg)
  else if nanLit cs then some PyFloatVal.nan
  else
    match decValue cs with
    | none => none
    | some (m, k) =>
      if overflowBound * 10 ^ k ≤ m then some (PyFloatVal.infinite neg)
      else some (PyFloatVal.finite (if neg then -(m : Int) else (m : Int)) k)

/-- Model of Python `float()` on a string: strip whitespace, optional sign,
then the body.  Finite values below the overflow bound are kept exact
(rounding to the nearest double is not modelled); exponent forms and
underscore digit separators are outside the model. -/
def pyFloat (s : List Char) : Option PyFloatVal :=
  match trimChars s with
  | '+' :: rest => pyFloatBody rest false
  | '-' :: rest => pyFloatBody rest true
  | cs => pyFloatBody cs false

/-- Python `int(x * mult)` on the exact scaled value `m / 10 ^ k`:
multiplication then truncation toward zero. -/
def scaledToInt (m : Int) (k : Nat) (mult : Nat) : Int :=
  (m * (mult : Int)).tdiv ((10 : Int) ^ k)

/-- The tail of a suffix branch of `convert_to_int` (main.py lines 91-99):
`int(float(...) * mult)` under `except ValueError`.  A `ValueError` from the
float parse, or from `int()` on NaN, is caught and yields 0; an infinite
value, or a finite value whose product with the multiplier reaches the
double-overflow bound, makes `int()` raise `OverflowError`, which
`except ValueError` does not catch — `none` models that uncaught raise. -/
def suffixConvert (v : Option PyFloatVal) (mult : Nat) : Option Int :=
  match v with
  | none => some 0
  | some PyFloatVal.nan => some 0
  | some (PyFloatVal.infinite _) => none
  | some (PyFloatVal.finite m k) =>
    if overflowBound * 10 ^ k ≤ m.natAbs * mult then none
    else some (scaledToInt m k mult)

/-- The working text of `convert_to_int` after line 88 of main.py:
stripped of outer whitespace and of all commas. -/
def commaStripped (text : String) : List Char :=
  (trimChars text.data).filter (fun c => c ≠ ',')

/-- `convert_to_int` (main.py lines 75-103): empty input is 0; otherwise strip
whitespace, remove commas; a `万` suffix multiplies the parsed number by
10000, a `K`/`k` suffix by 1000, an `M`/`m` suffix by 1000000 (the suffix
branches uppercase the string and remove the suffix letter before the float
parse); with no suffix, all non-digit characters are removed and the
remainder parsed as an integer, with 0 on an empty remainder.  The result is
`some` of the returned integer, or `none` when the function raises an
uncaught `OverflowError` (see `suffixConvert`). -/
def convert_to_int (text : String) : Option Int :=
  if text.data = [] then some 0
  else if (commaStripped text).contains '万' then
    suffixConvert (pyFloat ((commaStripped text).filter (fun c => c ≠ '万'))) 10000
  else if ((commaStripped text).map Char.toUpper).contains 'K' then
    suffixConvert (pyFloat (((commaStripped text).map Char.toUpper).filter (fun c => c ≠ 'K')))
      1000
  else if ((commaStripped text).map Char.toUpper).contains 'M' then
    suffixConvert (pyFloat (((commaStripped text).map Char.toUpper).filter (fun c => c ≠ 'M')))
      1000000
  else
    match (commaStripped text).filter Char.isDigit with
    | [] => some 0
    | ds => some ((natOfDigits ds : Int))

/-! ## Post record and metric-span selection (main.py lines 105-244) -/

/-- The record built by `parse_post` for one post. -/
structure Post where
  post_url : String
  username : String
  display_name : String
  date : String
  text : String
  likes : Int
  reposts : Int
  views : Int
  hashtags : String
deriving DecidableEq

/-- The numeric-looking test applied to each stripped span text inside a
metric control (main.py line 179): non-empty, and all digits or containing
one of the exact characters K, M, 万, comma. -/
def looksMetric (t : List Char) : Bool :=
  !t.isEmpty &&
    (t.all Char.isDigit || t.contains 'K' || t.contains 'M' || t.contains '万' || t.contains ',')

/-- The span-scanning loop of each metric block (main.py lines 176-181): the
stripped text of the first span passing `looksMetric`, else the empty
string. -/
def pickMetricText : List String → String
  | [] => ""
  | s :: rest =>
    let t := trimChars s.data
    if looksMetric t then String.mk t else pickMetricText rest

/-- One engagement metric: 0 when the control is absent
(`NoSuchElementException` branch), else the normalized first matching span
text; `none` when the normalizer raises an uncaught `OverflowError`. -/
def metricOfSpans : Option (List String) → Option Int
  | none => some 0
  | some spans => convert_to_int (pickMetricText spans)

/-- The sub-node data read by one successful attempt of `parse_post` after the
permalink: author fields, body, hashtags, and the span texts of each present
metric control (`none` when the control is absent from the node). -/
structure NodeRest where
  username : String
  display_name : String
  text : String
  hashtags : String
  likeSpans : Option (List String)
  repostSpans : Option (List String)
  viewSpans : Option (List String)
deriving DecidableEq

/-- Assembling the returned record (main.py lines 182-228).  When any of the
three metric conversions raises (an `OverflowError` escaping
`convert_to_int`), the attempt raises inside the try of `parse_post` and is
handled as an unexpected exception — `none` here. -/
def buildPost (url date : String) (nr : NodeRest) : Option Post :=
  match metricOfSpans nr.likeSpans, metricOfSpans nr.repostSpans, metricOfSpans nr.viewSpans with
  | some likes, some reposts, some views =>
    some
      { post_url := url
        username := nr.username
        display_name := nr.display_name
        date := date
        text := nr.text
        likes := likes
        reposts := reposts
        views := views
        hashtags := nr.hashtags }
  | _, _, _ => none

/-- Is `pat` a contiguous sublist of `l` (Python substring test)? -/
def isSubList (pat : List Char) : List Char → Bool
  | [] => pat.isEmpty
  | c :: rest => pat.isPrefixOf (c :: rest) || isSubList pat rest

/-- Python `'/status/' in url` (main.py line 130). -/
def hasStatusMarker (url : String) : Bool :=
  isSubList "/status/".data url.data

/-- What happened after the permalink was read on one attempt. -/
inductive RestOutcome
  | ok (nr : NodeRest)
  | staleLater
  | otherLater
deriving DecidableEq

/-- Outcome of one attempt's reads against the live node: a staleness-class
exception before the permalink was obtained, an unexpected exception before
the permalink, or the timestamp and permalink together with what the rest of
the reads produced. -/
inductive AttemptRead
  | earlyStale
  | earlyOther
  | gotUrl (date url : String) (rest : RestOutcome)
deriving DecidableEq

/-- Result of `parse_post` together with the attempts consumed and the number
of 0.5-second retry delays slept. -/
structure ParseTrace where
  result : Option Post
  attemptsUsed : Nat
  halfSecSleeps : Nat
deriving DecidableEq

def MAX_PARSE_RETRIES : Nat := 3

/-- The retry loop of `parse_post` (main.py lines 118-244), recursing on the
number of remaining attempts; `k` is the index of the current attempt and
`sleeps` the retry delays taken so far.  A staleness-class exception sleeps
0.5 s and retries unless this was the last attempt (lines 230-238); an
unexpected exception returns `none` at once (lines 239-242); a permalink
without the `/status/` marker returns `none` at once (lines 130-131). -/
def parseGo (att : Nat → AttemptRead) : Nat → Nat → Nat → ParseTrace
  | 0, k, sleeps => ⟨none, k, sleeps⟩
  | remaining + 1, k, sleeps =>
    match att k with
    | .earlyStale =>
      if remaining = 0 then ⟨none, k + 1, sleeps⟩
      else parseGo att remaining (k + 1) (sleeps + 1)
    | .earlyOther => ⟨none, k + 1, sleeps⟩
    | .gotUrl date url rest =>
      if hasStatusMarker url then
        match rest with
        | .ok nr =>
          match buildPost url date nr with
          | some p => ⟨some p, k + 1, sleeps⟩
          | none => ⟨none, k + 1, sleeps⟩
        | .staleLater =>
          if remaining = 0 then ⟨none, k + 1, sleeps⟩
          else parseGo att remaining (k + 1) (sleeps + 1)
        | .otherLater => ⟨none, k + 1, sleeps⟩
      else ⟨none, k + 1, sleeps⟩

/-- `parse_post` (main.py lines 105-244) run against the per-attempt read
oracle `att`. -/
def parse_post (att : Nat → AttemptRead) : ParseTrace :=
  parseGo att MAX_PARSE_RETRIES 0 0

/-! ## Accumulator inlined in scrape_buzzed_posts (main.py lines 339-365) -/

def LIKE_THRESHOLD : Int := 100

/-- Session accumulator state: `scraped_urls` and `collected_data`. -/
structure ScanSt where
  scraped : List String
  collected : List Post
deriving DecidableEq

/-- Processing of one parsed post inside the article loop (main.py lines
346-365): skip if the url was seen; otherwise record the url unconditionally,
and append to `collected` exactly when the like count meets the threshold.
Returns the new state, whether the post was accepted, and whether the
article loop breaks (collected length reached `limit` after the append). -/
def offerPost (limit : Nat) (st : ScanSt) (p : Post) : ScanSt × Bool × Bool :=
  if p.post_url ∈ st.scraped then (st, false, false)
  else
    let st1 : ScanSt := ⟨p.post_url :: st.scraped, st.collected⟩
    if LIKE_THRESHOLD ≤ p.likes then
      let st2 : ScanSt := ⟨st1.scraped, st1.collected ++ [p]⟩
      (st2, true, decide (limit ≤ st2.collected.length))
    else (st1, false, false)

/-- The article loop of one scroll iteration (main.py lines 339-365) over the
parse results of the snapshot, threading the `new_posts_found_in_this_scroll`
flag `g` and honouring the break at the collection limit. -/
def processArticles (limit : Nat) (st : ScanSt) (g : Bool) : List (Option Post) → ScanSt × Bool
  | [] => (st, g)
  | none :: rest => processArticles limit st g rest
  | some p :: rest =>
    let r := offerPost limit st p
    if r.2.2 then (r.1, g || r.2.1)
    else processArticles limit r.1 (g || r.2.1) rest

/-- Invariant of the accumulator state: every collected url was recorded as
seen, and no url occurs twice in `collected`. -/
def ScanInv (st : ScanSt) : Prop :=
  (∀ p ∈ st.collected, p.post_url ∈ st.scraped) ∧
    (st.collected.map Post.post_url).Nodup

/-! ## Scroll / patience / termination loop (main.py lines 313-405) -/

def MAX_SCROLL_PATIENCE : Nat := 5

/-- Why the while loop of `scrape_buzzed_posts` ended. -/
inductive ExitReason
  | targetReached
  | feedExhausted
  | iterationCeiling
deriving DecidableEq

/-- The browser's responses for one scroll iteration: the parse results of the
`article` snapshot, and the document height read after scrolling. -/
structure IterResp where
  articles : List (Option Post)
  newHeight : Nat
deriving DecidableEq

/-- Loop state of `scrape_buzzed_posts` apart from the scroll counter. -/
structure CrawlSt where
  scan : ScanSt
  lastHeight : Nat
  patience : Nat
deriving DecidableEq

/-- The body of one while-loop iteration (main.py lines 321-405), minus the
scroll-counter increment: an empty snapshot just waits and re-scrolls
(lines 331-337); otherwise the articles are processed, reaching the limit
ends the loop (lines 363-375), and the patience counter is updated from
height growth and the accepted-post flag (lines 388-405), ending the loop at
`MAX_SCROLL_PATIENCE`. -/
def crawlIter (limit : Nat) (r : IterResp) (st : CrawlSt) : CrawlSt × Option ExitReason :=
  if r.articles = [] then (st, none)
  else if limit ≤ (processArticles limit st.scan false r.articles).1.collected.length then
    (⟨(processArticles limit st.scan false r.articles).1, st.lastHeight, st.patience⟩,
      some ExitReason.targetReached)
  else if r.newHeight = st.lastHeight then
    if (processArticles limit st.scan false r.articles).2 = false then
      if MAX_SCROLL_PATIENCE ≤ st.patience + 1 then
        (⟨(processArticles limit st.scan false r.articles).1, st.lastHeight, st.patience + 1⟩,
          some ExitReason.feedExhausted)
      else
        (⟨(processArticles limit st.scan false r.articles).1, st.lastHeight, st.patience + 1⟩,
          none)
    else (⟨(processArticles limit st.scan false r.articles).1, st.lastHeight, 0⟩, none)
  else (⟨(processArticles limit st.scan false r.articles).1, r.newHeight, 0⟩, none)

/-- The while loop (main.py line 321): guard `len(collected) < limit` and
`scroll_count < max_scrolls`.  `c` is the scroll counter and `fuel` the
remaining iterations under the ceiling (`fuel = 50 - c` at the entry call);
`resp c` gives the browser's responses for iteration `c`.  Returns the final
state, the final scroll count, and the reason the loop ended. -/
def crawlGo (limit : Nat) (resp : Nat → IterResp) : Nat → Nat → CrawlSt → CrawlSt × Nat × ExitReason
  | fuel, c, st =>
    if st.scan.collected.length < limit then
      match fuel with
      | 0 => (st, c, ExitReason.iterationCeiling)
      | fuel + 1 =>
        match crawlIter limit (resp c) st with
        | (st1, none) => crawlGo limit resp fuel (c + 1) st1
        | (st1, some why) => (st1, c + 1, why)
    else (st, c, ExitReason.targetReached)

/-- The crawl loop of `scrape_buzzed_posts` from its initial counters
(main.py lines 313-321): scroll counter 0, ceiling `max_scrolls = 50`. -/
def scrapeLoop (limit : Nat) (resp : Nat → IterResp) (st : CrawlSt) : CrawlSt × Nat × ExitReason :=
  crawlGo limit resp 50 0 st

/-- A scroll iteration response that makes no progress from scan state `sc`
and height `h`: a non-empty snapshot whose processing changes nothing and
accepts nothing, with the document height unchanged. -/
def Stagnant (limit : Nat) (r : IterResp) (sc : ScanSt) (h : Nat) : Prop :=
  r.articles ≠ [] ∧ processArticles limit sc false r.articles = (sc, false) ∧ r.newHeight = h

/-! ## Session resource handling (main.py lines 303-418) -/

/-- Outcome of the try/except in `scrape_buzzed_posts`: either the body ran to
completion, or an exception reached the except handler. -/
inductive TryOutcome (ε : Type)
  | success
  | caught (e : ε)
deriving DecidableEq

/-- Observable record of one `scrape_buzzed_posts` session: how the try/except
ended, the crawl result when the body succeeded, whether `setup_driver`
returned a driver, and whether the finally block called `driver.quit()`. -/
structure SessionRun (ε α : Type) where
  outcome : TryOutcome ε
  crawlResult : Option α
  driverCreated : Bool
  driverReleased : Bool

/-- The try/except/finally of `scrape_buzzed_posts` (main.py lines 303-418):
`setup` models `setup_driver()` and `crawl` the rest of the body (the crawl
loop and save), either of which may raise.  The except clause catches any
exception from the body; the finally clause quits the driver exactly when one
was created. -/
def scrape_session {ε α : Type} (setup : Except ε Unit) (crawl : Except ε α) : SessionRun ε α :=
  match setup with
  | .error e =>
    { outcome := .caught e, crawlResult := none, driverCreated := false, driverReleased := false }
  | .ok _ =>
    match crawl with
    | .error e =>
      { outcome := .caught e, crawlResult := none, driverCreated := true, driverReleased := true }
    | .ok a =>
      { outcome := .success, crawlResult := some a, driverCreated := true, driverReleased := true }

/-! ## Lemmas about the normalizer -/

theorem mem_of_mem_trimChars {c : Char} {cs : List Char} (h : c ∈ trimChars cs) : c ∈ cs := by
  unfold trimChars at h
  rw [List.mem_reverse] at h
  have h2 := (List.dropWhile_sublist _).subset h
  rw [List.mem_reverse] at h2
  exact (List.dropWhile_sublist _).subset h2

theorem decValue_none_of_nodigit {cs : List Char}
    (hnd : ∀ c ∈ cs, c.isDigit = false) : decValue cs = none := by
  unfold decValue
  rw [if_neg]
  intro hcond
  obtain ⟨c, hc, hdig⟩ := hcond.2.2
  rw [hnd c hc] at hdig
  exact Bool.false_ne_true hdig

theorem matchCI_head_mem {cs : List Char} {lo up : Char} {ps : List (Char × Char)}
    (h : matchCI cs ((lo, up) :: ps) = true) : lo ∈ cs ∨ up ∈ cs := by
  cases cs with
  | nil => exact absurd h (by simp [matchCI])
  | cons a as =>
    simp only [matchCI, Bool.and_eq_true, Bool.or_eq_true, decide_eq_true_eq] at h
    rcases h.1 with h1 | h1
    · left
      rw [← h1]
      exact List.mem_cons_self _ _
    · right
      rw [← h1]
      exact List.mem_cons_self _ _

theorem infLit_false {cs : List Char} (hi : 'i' ∉ cs) (hI : 'I' ∉ cs) :
    infLit cs = false := by
  cases hb : infLit cs
  · rfl
  · exfalso
    unfold infLit at hb
    rw [Bool.or_eq_true] at hb
    rcases hb with hb | hb <;> rcases matchCI_head_mem hb with h | h
    · exact hi h
    · exact hI h
    · exact hi h
    · exact hI h

theorem pyFloatBody_nodigit {cs : List Char} {b : Bool}
    (h : ∀ c ∈ cs, c.isDigit = false ∧ c ≠ 'i' ∧ c ≠ 'I') :
    pyFloatBody cs b = none ∨ pyFloatBody cs b = some PyFloatVal.nan := by
  have hinf : infLit cs = false :=
    infLit_false (fun hm => (h _ hm).2.1 rfl) (fun hm => (h _ hm).2.2 rfl)
  unfold pyFloatBody
  rw [hinf]
  simp only [Bool.false_eq_true, if_false]
  by_cases hn : nanLit cs = true
  · rw [if_pos hn]
    right
    rfl
  · rw [if_neg hn]
    left
    rw [decValue_none_of_nodigit (fun c hc => (h c hc).1)]

theorem pyFloat_nodigit {cs : List Char}
    (h : ∀ c ∈ cs, c.isDigit = false ∧ c ≠ 'i' ∧ c ≠ 'I') :
    pyFloat cs = none ∨ pyFloat cs = some PyFloatVal.nan := by
  have htrim : ∀ c ∈ trimChars cs, c.isDigit = false ∧ c ≠ 'i' ∧ c ≠ 'I' :=
    fun c hc => h c (mem_of_mem_trimChars hc)
  unfold pyFloat
  split
  · rename_i rest heq
    exact pyFloatBody_nodigit (fun c hc => htrim c (heq ▸ List.mem_cons_of_mem _ hc))
  · rename_i rest heq
    exact pyFloatBody_nodigit (fun c hc => htrim c (heq ▸ List.mem_cons_of_mem _ hc))
  · exact pyFloatBody_nodigit htrim

theorem pyFloatBody_finite_nonneg {cs : List Char} {m : Int} {k : Nat}
    (h : pyFloatBody cs false = some (PyFloatVal.finite m k)) : 0 ≤ m := by
  unfold pyFloatBody at h
  split at h
  · exact absurd h (by simp)
  split at h
  · exact absurd h (by simp)
  rcases hd : decValue cs with _ | ⟨m0, k0⟩ <;>
    simp only [hd, Bool.false_eq_true, if_false] at h
  · exact absurd h (by simp)
  · split at h
    · exact absurd h (by simp)
    · simp only [Option.some.injEq, PyFloatVal.finite.injEq] at h
      rw [← h.1]
      exact Int.natCast_nonneg _

theorem pyFloat_finite_nonneg {cs : List Char} {m : Int} {k : Nat}
    (h : pyFloat cs = some (PyFloatVal.finite m k)) : 0 ≤ m ∨ '-' ∈ cs := by
  unfold pyFloat at h
  split at h
  · exact Or.inl (pyFloatBody_finite_nonneg h)
  · rename_i rest heq
    right
    have hmm : '-' ∈ trimChars cs := by
      rw [heq]
      exact List.mem_cons_self _ _
    exact mem_of_mem_trimChars hmm
  · exact Or.inl (pyFloatBody_finite_nonneg h)

theorem scaledToInt_nonneg {m : Int} {k mult : Nat} (hm : 0 ≤ m) :
    0 ≤ scaledToInt m k mult := by
  unfold scaledToInt
  apply Int.tdiv_nonneg
  · exact Int.mul_nonneg hm (Int.natCast_nonneg _)
  · positivity

theorem suffixConvert_caught {v : Option PyFloatVal} {mult : Nat}
    (h : v = none ∨ v = some PyFloatVal.nan) : suffixConvert v mult = some 0 := by
  rcases h with h | h <;> rw [h] <;> rfl

theorem suffixConvert_nonneg {v : Option PyFloatVal} {mult : Nat} {x : Int}
    (hf : ∀ m k, v = some (PyFloatVal.finite m k) → 0 ≤ m)
    (h : suffixConvert v mult = some x) : 0 ≤ x := by
  rcases v with _ | val
  · simp only [suffixConvert, Option.some.injEq] at h
    rw [← h]
  · cases val with
    | finite m k =>
      simp only [suffixConvert] at h
      split at h
      · exact absurd h (by simp)
      · simp only [Option.some.injEq] at h
        rw [← h]
        exact scaledToInt_nonneg (hf m k rfl)
    | infinite b => exact absurd h (by simp [suffixConvert])
    | nan =>
      simp only [suffixConvert, Option.some.injEq] at h
      rw [← h]

theorem mem_of_mem_commaStripped {c : Char} {text : String}
    (h : c ∈ commaStripped text) : c ∈ text.data :=
  mem_of_mem_trimChars (List.mem_of_mem_filter h)

theorem convert_to_int_nonneg {text : String} (hminus : '-' ∉ text.data) :
    ∀ v, convert_to_int text = some v → 0 ≤ v := by
  intro v hv
  unfold convert_to_int at hv
  split at hv
  · simp only [Option.some.injEq] at hv
    rw [← hv]
  split at hv
  · refine suffixConvert_nonneg ?_ hv
    intro m k hm
    rcases pyFloat_finite_nonneg hm with h0 | h0
    · exact h0
    · exact absurd (mem_of_mem_commaStripped (List.mem_of_mem_filter h0)) hminus
  split at hv
  · refine suffixConvert_nonneg ?_ hv
    intro m k hm
    rcases pyFloat_finite_nonneg hm with h0 | h0
    · exact h0
    · exfalso
      obtain ⟨c, hc, hcu⟩ := List.mem_map.mp (List.mem_of_mem_filter h0)
      rw [toUpper_minus hcu] at hc
      exact hminus (mem_of_mem_commaStripped hc)
  split at hv
  · refine suffixConvert_nonneg ?_ hv
    intro m k hm
    rcases pyFloat_finite_nonneg hm with h0 | h0
    · exact h0
    · exfalso
      obtain ⟨c, hc, hcu⟩ := List.mem_map.mp (List.mem_of_mem_filter h0)
      rw [toUpper_minus hcu] at hc
      exact hminus (mem_of_mem_commaStripped hc)
  · split at hv
    · simp only [Option.some.injEq] at hv
      rw [← hv]
    · simp only [Option.some.injEq] at hv
      rw [← hv]
      exact Int.natCast_nonneg _

theorem convert_to_int_nodigit {text : String}
    (hnd : ∀ c ∈ text.data, c.isDigit = false ∧ c ≠ 'i' ∧ c ≠ 'I') :
    convert_to_int text = some 0 := by
  have hcs : ∀ c ∈ commaStripped text, c.isDigit = false ∧ c ≠ 'i' ∧ c ≠ 'I' :=
    fun c hc => hnd c (mem_of_mem_commaStripped hc)
  have hup : ∀ c ∈ (commaStripped text).map Char.toUpper,
      c.isDigit = false ∧ c ≠ 'i' ∧ c ≠ 'I' := by
    intro c hc
    obtain ⟨d, hd, hdu⟩ := List.mem_map.mp hc
    obtain ⟨hd1, hd2, hd3⟩ := hcs d hd
    refine ⟨?_, ?_, ?_⟩
    · rw [← hdu]
      exact toUpper_digit hd1
    · rw [← hdu]
      exact toUpper_ne_i hd2
    · rw [← hdu]
      intro he
      rcases toUpper_eq_I he with h | h
      · exact hd2 h
      · exact hd3 h
  unfold convert_to_int
  split
  · rfl
  split
  · exact suffixConvert_caught (pyFloat_nodigit (fun c hc => hcs c (List.mem_of_mem_filter hc)))
  split
  · exact suffixConvert_caught (pyFloat_nodigit (fun c hc => hup c (List.mem_of_mem_filter hc)))
  split
  · exact suffixConvert_caught (pyFloat_nodigit (fun c hc => hup c (List.mem_of_mem_filter hc)))
  · rw [List.filter_eq_nil_iff.mpr
      (fun c hc => by rw [(hcs c hc).1]; exact Bool.false_ne_true)]

/-! ## Claim C5 -/

set_option maxRecDepth 10000 in
/-- C5 counterexample: the normalizer is neither non-negative nor total.  On
"-1万" the code parses -1.0, multiplies by 10000, and returns -10000; on
"inf万" `float("inf")` is infinite, and `int(inf * 10000)` raises an
`OverflowError` that `except ValueError` does not catch (`none`). -/
theorem convert_to_int_negative_input :
    convert_to_int "-1万" = some (-10000) ∧ convert_to_int "inf万" = none := by decide

set_option maxRecDepth 10000 in
/-- C5 (amended): the normalizer is not total: a numeric portion that parses
to an infinite float before a magnitude suffix — an `inf` literal, or a
decimal magnitude at or above the double-overflow bound, or a finite parse
whose product with the suffix multiplier reaches it — raises an uncaught
`OverflowError` (e.g. on "inf万").  Every value it does return is a
non-negative integer when the input has no minus sign (a minus sign before a
suffix can make it negative, as the counterexample shows); parse failures
and NaN are caught, and the empty string, or any input with no digit and no
letter i in either case (in particular "abc"), normalizes to 0. -/
theorem convert_to_int_total_amended (s t : String)
    (hminus : '-' ∉ s.data)
    (hnd : ∀ c ∈ t.data, c.isDigit = false ∧ c ≠ 'i' ∧ c ≠ 'I') :
    (∀ v, convert_to_int s = some v → 0 ≤ v) ∧ convert_to_int t = some 0 ∧
      convert_to_int "" = some 0 ∧ convert_to_int "inf万" = none :=
  ⟨convert_to_int_nonneg hminus, convert_to_int_nodigit hnd, by decide, by decide⟩

set_option maxRecDepth 10000 in
theorem convert_to_int_total_amended_witness :
    (0 : Int) ≤ 15000 ∧ convert_to_int "abc" = some 0 ∧ convert_to_int "" = some 0 ∧
      convert_to_int "inf万" = none :=
  ⟨(convert_to_int_total_amended "1.5万" "abc" (by decide) (by decide)).1 15000 (by decide),
    (convert_to_int_total_amended "1.5万" "abc" (by decide) (by decide)).2.1,
    (convert_to_int_total_amended "1.5万" "abc" (by decide) (by decide)).2.2.1,
    (convert_to_int_total_amended "1.5万" "abc" (by decide) (by decide)).2.2.2⟩

/-! ## Claim C6 -/

set_option maxRecDepth 10000 in
/-- C6: the reference values of the metric normalizer, plus a fractional
numeric portion before a magnitude suffix being truncated toward zero
(0.00015 × 10000 = 1.5, converted to 1).  All are returned values
(no exception). -/
theorem convert_to_int_reference_values :
    convert_to_int "1,234" = some 1234 ∧ convert_to_int "1.5万" = some 15000 ∧
      convert_to_int "10K" = some 10000 ∧ convert_to_int "2M" = some 2000000 ∧
      convert_to_int "" = some 0 ∧ convert_to_int "abc" = some 0 ∧
      convert_to_int "0.00015万" = some 1 := by decide

/-! ## Lemmas about the accumulator -/

theorem offerPost_cases (limit : Nat) (st : ScanSt) (p : Post) :
    (p.post_url ∈ st.scraped ∧ offerPost limit st p = (st, false, false)) ∨
      (p.post_url ∉ st.scraped ∧ ¬ LIKE_THRESHOLD ≤ p.likes ∧
        offerPost limit st p = (⟨p.post_url :: st.scraped, st.collected⟩, false, false)) ∨
      (p.post_url ∉ st.scraped ∧ LIKE_THRESHOLD ≤ p.likes ∧
        offerPost limit st p = (⟨p.post_url :: st.scraped, st.collected ++ [p]⟩, true,
          decide (limit ≤ st.collected.length + 1))) := by
  by_cases h1 : p.post_url ∈ st.scraped
  · left
    refine ⟨h1, ?_⟩
    simp only [offerPost, if_pos h1]
  · by_cases h2 : LIKE_THRESHOLD ≤ p.likes
    · right; right
      refine ⟨h1, h2, ?_⟩
      simp only [offerPost, if_neg h1, if_pos h2, List.length_append, List.length_cons,
        List.length_nil]
    · right; left
      refine ⟨h1, h2, ?_⟩
      simp only [offerPost, if_neg h1, if_neg h2]

theorem processArticles_length_le (limit : Nat) :
    ∀ (l : List (Option Post)) (st : ScanSt) (g : Bool),
      st.collected.length < limit →
      (processArticles limit st g l).1.collected.length ≤ limit := by
  intro l
  induction l with
  | nil => intro st g h; exact le_of_lt h
  | cons a rest ih =>
    intro st g h
    cases a with
    | none => exact ih st g h
    | some p =>
      simp only [processArticles]
      rcases offerPost_cases limit st p with ⟨_, he⟩ | ⟨_, _, he⟩ | ⟨_, _, he⟩
      · rw [he]
        simp only [decide_eq_true_eq]
        exact ih st (g || false) h
      · rw [he]
        exact ih _ (g || false) h
      · rw [he]
        by_cases hb : limit ≤ st.collected.length + 1
        · simp only [decide_eq_true (p := limit ≤ st.collected.length + 1) hb, if_true]
          simp only [List.length_append, List.length_cons, List.length_nil]
          omega
        · simp only [decide_eq_false (p := limit ≤ st.collected.length + 1) hb,
            Bool.false_eq_true, if_false]
          exact ih _ (g || true) (by simp; omega)

theorem offerPost_inv (limit : Nat) (st : ScanSt) (p : Post) (hinv : ScanInv st) :
    ScanInv (offerPost limit st p).1 := by
  obtain ⟨hin, hnd⟩ := hinv
  rcases offerPost_cases limit st p with ⟨_, he⟩ | ⟨h1, _, he⟩ | ⟨h1, _, he⟩
  · rw [he]; exact ⟨hin, hnd⟩
  · rw [he]
    exact ⟨fun q hq => List.mem_cons_of_mem _ (hin q hq), hnd⟩
  · rw [he]
    constructor
    · intro q hq
      rcases List.mem_append.mp hq with hq | hq
      · exact List.mem_cons_of_mem _ (hin q hq)
      · rw [List.mem_singleton.mp hq]
        exact List.mem_cons_self _ _
    · rw [List.map_append]
      simp only [List.map_cons, List.map_nil]
      rw [List.nodup_append]
      refine ⟨hnd, List.nodup_singleton _, ?_⟩
      intro u hu hu2
      rw [List.mem_singleton.mp hu2] at hu
      obtain ⟨q, hq, hqu⟩ := List.mem_map.mp hu
      rw [← hqu] at h1
      exact h1 (hin q hq)

theorem processArticles_inv (limit : Nat) :
    ∀ (l : List (Option Post)) (st : ScanSt) (g : Bool),
      ScanInv st → ScanInv (processArticles limit st g l).1 := by
  intro l
  induction l with
  | nil => intro st g h; exact h
  | cons a rest ih =>
    intro st g h
    cases a with
    | none => exact ih st g h
    | some p =>
      simp only [processArticles]
      split
      · exact offerPost_inv limit st p h
      · exact ih _ _ (offerPost_inv limit st p h)

/-! ## Claim C1 -/

/-- C1: in any state reachable by the controller (the while guard ensures
`collected.length < limit` whenever a post is offered), a post with an unseen
url is accepted exactly when its like count meets `LIKE_THRESHOLD` and there
is room under `limit`; a like count of threshold - 1 is never accepted, a
like count of exactly the threshold is; and the article loop never grows
`collected` beyond `limit` (once the limit is reached the loop breaks and no
further post is accepted). -/
theorem accumulator_threshold (limit : Nat) (st : ScanSt) (p : Post) (g : Bool)
    (l : List (Option Post))
    (hfresh : p.post_url ∉ st.scraped) (hroom : st.collected.length < limit) :
    ((offerPost limit st p).2.1 = true ↔
        LIKE_THRESHOLD ≤ p.likes ∧ st.collected.length < limit) ∧
      (p.likes = LIKE_THRESHOLD - 1 → (offerPost limit st p).2.1 = false) ∧
      (p.likes = LIKE_THRESHOLD → (offerPost limit st p).2.1 = true) ∧
      (processArticles limit st g l).1.collected.length ≤ limit := by
  refine ⟨?_, ?_, ?_, processArticles_length_le limit l st g hroom⟩ <;>
    rcases offerPost_cases limit st p with ⟨hd, he⟩ | ⟨_, h2, he⟩ | ⟨_, h2, he⟩
  · exact absurd hd hfresh
  · rw [he]
    simp only [Bool.false_eq_true, false_iff]
    intro hc
    exact h2 hc.1
  · rw [he]
    simp only [true_iff]
    exact ⟨h2, hroom⟩
  · exact absurd hd hfresh
  · intro _; rw [he]
  · intro hl
    rw [hl] at h2
    exact absurd h2 (by norm_num [LIKE_THRESHOLD])
  · exact absurd hd hfresh
  · intro hl
    rw [hl] at h2
    exact absurd (by norm_num [LIKE_THRESHOLD]) h2
  · intro _; rw [he]

/-- A fresh qualifying post used by the accumulator witnesses. -/
def wpost : Post :=
  { post_url := "https://x.com/a/status/1", username := "@a", display_name := "A",
    date := "2025-10-01", text := "t", likes := 100, reposts := 0, views := 0,
    hashtags := "" }

theorem accumulator_threshold_witness :
    (offerPost 1 ⟨[], []⟩ wpost).2.1 = true :=
  ((accumulator_threshold 1 ⟨[], []⟩ wpost false [] (by decide) (by decide)).1).mpr
    (by constructor <;> decide)

/-! ## Claim C2 -/

/-- C2: offering a post whose url is already recorded changes nothing at all
(whatever its like count); a first-time offer records its url
unconditionally, even when the like threshold fails; and the accumulator
invariant — every collected url is recorded as seen, and `collected` holds
no two records with the same url — is preserved by the article loop. -/
theorem accumulator_dedup (limit : Nat) (st : ScanSt) (p q : Post) (g : Bool)
    (l : List (Option Post))
    (hdup : p.post_url ∈ st.scraped) (hfresh : q.post_url ∉ st.scraped)
    (hinv : ScanInv st) :
    offerPost limit st p = (st, false, false) ∧
      (offerPost limit st q).1.scraped = q.post_url :: st.scraped ∧
      ScanInv (processArticles limit st g l).1 ∧
      ((processArticles limit st g l).1.collected.map Post.post_url).Nodup := by
  refine ⟨?_, ?_, processArticles_inv limit l st g hinv,
    (processArticles_inv limit l st g hinv).2⟩
  · simp only [offerPost, if_pos hdup]
  · rcases offerPost_cases limit st q with ⟨hd, _⟩ | ⟨_, _, he⟩ | ⟨_, _, he⟩
    · exact absurd hd hfresh
    · rw [he]
    · rw [he]

/-- A post that fails the like threshold, used by the dedup witness. -/
def wlow : Post :=
  { post_url := "https://x.com/b/status/2", username := "@b", display_name := "B",
    date := "2025-10-02", text := "u", likes := 99, reposts := 0, views := 0,
    hashtags := "" }

theorem accumulator_dedup_witness :
    offerPost 3 ⟨[wpost.post_url], [wpost]⟩ wpost = (⟨[wpost.post_url], [wpost]⟩, false, false) ∧
      (offerPost 3 ⟨[wpost.post_url], [wpost]⟩ wlow).1.scraped =
        wlow.post_url :: [wpost.post_url] :=
  ⟨(accumulator_dedup 3 ⟨[wpost.post_url], [wpost]⟩ wpost wlow false []
      (by decide) (by decide) (by constructor <;> decide)).1,
    (accumulator_dedup 3 ⟨[wpost.post_url], [wpost]⟩ wpost wlow false []
      (by decide) (by decide) (by constructor <;> decide)).2.1⟩

/-! ## Lemmas about the crawl loop -/

theorem crawlIter_stagnant {limit : Nat} {r : IterResp} {st : CrawlSt}
    (hs : Stagnant limit r st.scan st.lastHeight)
    (hroom : st.scan.collected.length < limit) :
    crawlIter limit r st =
      (⟨st.scan, st.lastHeight, st.patience + 1⟩,
        if MAX_SCROLL_PATIENCE ≤ st.patience + 1 then some ExitReason.feedExhausted
        else none) := by
  obtain ⟨hne, hpr, hh⟩ := hs
  unfold crawlIter
  rw [if_neg hne]
  simp only [hpr]
  rw [if_neg (not_le.mpr hroom), if_pos hh]
  by_cases hp : MAX_SCROLL_PATIENCE ≤ st.patience + 1
  · rw [if_pos hp, if_pos hp]
    exact if_pos trivial
  · rw [if_neg hp, if_neg hp]
    exact if_pos trivial

theorem crawlGo_stagnant_run (limit : Nat) (resp : Nat → IterResp) :
    ∀ (k fuel c : Nat) (st : CrawlSt), st.patience + k = MAX_SCROLL_PATIENCE → 1 ≤ k →
      k ≤ fuel → st.scan.collected.length < limit →
      (∀ i, i < k → Stagnant limit (resp (c + i)) st.scan st.lastHeight) →
      crawlGo limit resp fuel c st =
        (⟨st.scan, st.lastHeight, MAX_SCROLL_PATIENCE⟩, c + k, ExitReason.feedExhausted) := by
  intro k
  induction k with
  | zero => intro fuel c st h1 h2; exact absurd h2 (by omega)
  | succ n ih =>
    intro fuel c st h1 h2 h3 hroom hstag
    cases fuel with
    | zero => exact absurd h3 (by omega)
    | succ m =>
      rw [crawlGo]
      rw [if_pos hroom]
      have hs0 : Stagnant limit (resp c) st.scan st.lastHeight := by
        have := hstag 0 (by omega)
        rwa [Nat.add_zero] at this
      rw [crawlIter_stagnant hs0 hroom]
      by_cases hn : n = 0
      · subst hn
        have hp : MAX_SCROLL_PATIENCE ≤ st.patience + 1 := by omega
        rw [if_pos hp]
        have : st.patience + 1 = MAX_SCROLL_PATIENCE := by omega
        rw [this]
      · have hp : ¬ MAX_SCROLL_PATIENCE ≤ st.patience + 1 := by omega
        rw [if_neg hp]
        have hrec := ih m (c + 1) ⟨st.scan, st.lastHeight, st.patience + 1⟩
          (by simpa using by omega) (by omega) (by omega) hroom
          (fun i hi => by
            have := hstag (i + 1) (by omega)
            rwa [show c + (i + 1) = c + 1 + i by omega] at this)
        change crawlGo limit resp m (c + 1) ⟨st.scan, st.lastHeight, st.patience + 1⟩ =
          (⟨st.scan, st.lastHeight, MAX_SCROLL_PATIENCE⟩, c + (n + 1), ExitReason.feedExhausted)
        rw [show c + (n + 1) = c + 1 + n by omega]
        exact hrec

theorem crawlGo_count_le (limit : Nat) (resp : Nat → IterResp) :
    ∀ (fuel c : Nat) (st : CrawlSt), (crawlGo limit resp fuel c st).2.1 ≤ c + fuel := by
  intro fuel
  induction fuel with
  | zero =>
    intro c st
    rw [crawlGo]
    split
    · exact Nat.le_refl _
    · exact Nat.le_refl _
  | succ m ih =>
    intro c st
    rw [crawlGo]
    split
    · rcases hit : crawlIter limit (resp c) st with ⟨st1, o⟩
      cases o with
      | none =>
        simp only [hit]
        exact le_trans (ih (c + 1) st1) (by omega)
      | some why =>
        simp only [hit]
        show c + 1 ≤ c + (m + 1)
        omega
    · show c ≤ c + (m + 1)
      omega

/-! ## Claim C3 -/

/-- C3: from any reachable loop state with patience 0, room under the limit
and at least 5 iterations left under the ceiling, five consecutive stagnant
scroll iterations (no height growth, no accepted post) make the loop end
with reason feed-exhausted exactly at scroll count c + 5 — not before and
not after; and in any continuing iteration in which the height grew or a
post was accepted, the patience counter is reset to 0. -/
theorem crawl_feed_exhaustion (limit fuel c : Nat) (st : CrawlSt) (resp : Nat → IterResp)
    (hp : st.patience = 0) (hroom : st.scan.collected.length < limit) (hfuel : 5 ≤ fuel)
    (hstag : ∀ i, i < 5 → Stagnant limit (resp (c + i)) st.scan st.lastHeight) :
    crawlGo limit resp fuel c st =
      (⟨st.scan, st.lastHeight, 5⟩, c + 5, ExitReason.feedExhausted) ∧
      (∀ (r : IterResp) (s : CrawlSt), r.articles ≠ [] →
        (processArticles limit s.scan false r.articles).1.collected.length < limit →
        (r.newHeight ≠ s.lastHeight ∨ (processArticles limit s.scan false r.articles).2 = true) →
        (crawlIter limit r s).1.patience = 0 ∧ (crawlIter limit r s).2 = none) := by
  constructor
  · exact crawlGo_stagnant_run limit resp 5 fuel c st (by rw [hp]; rfl) (by omega) hfuel hroom
      hstag
  · intro r s hne hlen hgrow
    unfold crawlIter
    rw [if_neg hne, if_neg (not_le.mpr hlen)]
    rcases hgrow with hgrow | hgrow
    · rw [if_neg hgrow]
      exact ⟨rfl, rfl⟩
    · by_cases hh : r.newHeight = s.lastHeight
      · rw [if_pos hh, hgrow, if_neg (by decide : ¬ (true = false))]
        exact ⟨rfl, rfl⟩
      · rw [if_neg hh]
        exact ⟨rfl, rfl⟩

/-- A response sequence whose every snapshot holds only an already-seen post
and whose height never changes, and the matching start state. -/
def wresp : Nat → IterResp := fun _ => ⟨[some wpost], 7⟩

def wstag : CrawlSt := ⟨⟨[wpost.post_url], []⟩, 7, 0⟩

theorem crawl_feed_exhaustion_witness :
    crawlGo 1 wresp 50 0 wstag =
      (⟨wstag.scan, wstag.lastHeight, 5⟩, 0 + 5, ExitReason.feedExhausted) :=
  (crawl_feed_exhaustion 1 50 0 wstag wresp rfl (by decide) (by decide)
    (fun i hi => by
      show Stagnant 1 ⟨[some wpost], 7⟩ wstag.scan wstag.lastHeight
      exact ⟨by decide, by decide, rfl⟩)).1

/-! ## Claim C4 -/

/-- C4: for every response sequence the crawl loop performs at most 50 scroll
iterations (the final scroll count never exceeds `max_scrolls = 50`, so the
loop always terminates), and an empty snapshot consumes an iteration of this
ceiling while changing nothing else (the `continue` branch of lines
331-337). -/
theorem crawl_iteration_ceiling (limit : Nat) (resp : Nat → IterResp) (st : CrawlSt)
    (r : IterResp) (s : CrawlSt) (hr : r.articles = []) :
    (scrapeLoop limit resp st).2.1 ≤ 50 ∧ crawlIter limit r s = (s, none) := by
  constructor
  · have h := crawlGo_count_le limit resp 50 0 st
    simpa using h
  · unfold crawlIter
    rw [if_pos hr]

theorem crawl_iteration_ceiling_witness :
    (scrapeLoop 1 wresp wstag).2.1 ≤ 50 ∧ crawlIter 1 ⟨[], 3⟩ wstag = (wstag, none) :=
  crawl_iteration_ceiling 1 wresp wstag ⟨[], 3⟩ wstag rfl

/-! ## Lemmas about the extractor retry loop -/

theorem parseGo_attempts_le (att : Nat → AttemptRead) :
    ∀ (rem k s : Nat), (parseGo att rem k s).attemptsUsed ≤ k + rem := by
  intro rem
  induction rem with
  | zero => intro k s; exact Nat.le_refl _
  | succ n ih =>
    intro k s
    cases h : att k with
    | earlyStale =>
      simp only [parseGo, h]
      by_cases hn : n = 0
      · subst hn
        simp
      · rw [if_neg hn]
        exact le_trans (ih (k + 1) (s + 1)) (by omega)
    | earlyOther =>
      simp only [parseGo, h]
      omega
    | gotUrl d u r =>
      simp only [parseGo, h]
      by_cases hm : hasStatusMarker u
      · rw [if_pos hm]
        cases r with
        | ok nr =>
          rcases hb : buildPost u d nr with _ | p <;> simp only [hb] <;> omega
        | staleLater =>
          simp only []
          by_cases hn : n = 0
          · subst hn
            simp
          · rw [if_neg hn]
            exact le_trans (ih (k + 1) (s + 1)) (by omega)
        | otherLater =>
          show k + 1 ≤ k + (n + 1)
          omega
      · rw [if_neg hm]
        show k + 1 ≤ k + (n + 1)
        omega

/-! ## Claim C7 -/

/-- C7: against a node whose reads keep failing with the staleness class of
exception (early or after the permalink), the extractor retries the same node
and consumes exactly 3 attempts with exactly 2 half-second retry delays (one
before each retry), returning absent; an unexpected failure is not retried,
returning absent after 1 attempt with no delay; and no oracle whatsoever can
make the extractor consume more than 3 attempts. -/
theorem parse_post_retry (att attO attL attLO : Nat → AttemptRead) (d u d2 u2 : String)
    (hst : ∀ k, k < 3 → att k = AttemptRead.earlyStale)
    (hot : attO 0 = AttemptRead.earlyOther)
    (hm : hasStatusMarker u = true)
    (hL : ∀ k, k < 3 → attL k = AttemptRead.gotUrl d u RestOutcome.staleLater)
    (hm2 : hasStatusMarker u2 = true)
    (hLO : attLO 0 = AttemptRead.gotUrl d2 u2 RestOutcome.otherLater) :
    parse_post att = ⟨none, 3, 2⟩ ∧ parse_post attL = ⟨none, 3, 2⟩ ∧
      parse_post attO = ⟨none, 1, 0⟩ ∧ parse_post attLO = ⟨none, 1, 0⟩ ∧
      (∀ f : Nat → AttemptRead, (parse_post f).attemptsUsed ≤ 3) := by
  refine ⟨?_, ?_, ?_, ?_, fun f => by simpa using parseGo_attempts_le f 3 0 0⟩
  · have h0 := hst 0 (by omega)
    have h1 := hst 1 (by omega)
    have h2 := hst 2 (by omega)
    simp [parse_post, MAX_PARSE_RETRIES, parseGo, h0, h1, h2]
  · have h0 := hL 0 (by omega)
    have h1 := hL 1 (by omega)
    have h2 := hL 2 (by omega)
    simp [parse_post, MAX_PARSE_RETRIES, parseGo, h0, h1, h2, hm]
  · simp [parse_post, MAX_PARSE_RETRIES, parseGo, hot]
  · simp [parse_post, MAX_PARSE_RETRIES, parseGo, hLO, hm2]

/-- Oracles used by the extractor witnesses. -/
def wAttStale : Nat → AttemptRead := fun _ => AttemptRead.earlyStale

def wAttOther : Nat → AttemptRead := fun _ => AttemptRead.earlyOther

def wNodeRest : NodeRest :=
  ⟨"@a", "A", "t", "", some ["100"], none, none⟩

def wAttLate : Nat → AttemptRead :=
  fun _ => AttemptRead.gotUrl "2025-10-01" "https://x.com/a/status/1" RestOutcome.staleLater

def wAttLateO : Nat → AttemptRead :=
  fun _ => AttemptRead.gotUrl "2025-10-01" "https://x.com/a/status/1" RestOutcome.otherLater

def wAttAd : Nat → AttemptRead :=
  fun _ => AttemptRead.gotUrl "2025-10-01" "https://x.com/i/ads" (RestOutcome.ok wNodeRest)

theorem parse_post_retry_witness :
    parse_post wAttStale = ⟨none, 3, 2⟩ ∧ parse_post wAttOther = ⟨none, 1, 0⟩ :=
  ⟨(parse_post_retry wAttStale wAttOther wAttLate wAttLateO
      "2025-10-01" "https://x.com/a/status/1" "2025-10-01" "https://x.com/a/status/1"
      (fun k hk => rfl) rfl (by decide) (fun k hk => rfl) (by decide) rfl).1,
    (parse_post_retry wAttStale wAttOther wAttLate wAttLateO
      "2025-10-01" "https://x.com/a/status/1" "2025-10-01" "https://x.com/a/status/1"
      (fun k hk => rfl) rfl (by decide) (fun k hk => rfl) (by decide) rfl).2.2.1⟩

/-! ## Claim C8 -/

/-- C8: a node whose permalink lacks the `/status/` marker makes the
extractor return absent on the first attempt, with exactly 1 attempt
consumed — zero retries — and no retry delay, whatever the rest of the node
holds. -/
theorem parse_post_not_a_post (att : Nat → AttemptRead) (d u : String) (r : RestOutcome)
    (h0 : att 0 = AttemptRead.gotUrl d u r) (hm : hasStatusMarker u = false) :
    parse_post att = ⟨none, 1, 0⟩ := by
  simp [parse_post, MAX_PARSE_RETRIES, parseGo, h0, hm]

theorem parse_post_not_a_post_witness : parse_post wAttAd = ⟨none, 1, 0⟩ :=
  parse_post_not_a_post wAttAd "2025-10-01" "https://x.com/i/ads"
    (RestOutcome.ok wNodeRest) rfl (by decide)

/-! ## Claim C10 -/

theorem pickMetricText_all_fail : ∀ (spans : List String),
    (∀ s ∈ spans, looksMetric (trimChars s.data) = false) → pickMetricText spans = "" := by
  intro spans
  induction spans with
  | nil => intro h; rfl
  | cons s rest ih =>
    intro h
    have h0 := h s (List.mem_cons_self _ _)
    simp only [pickMetricText, h0, Bool.false_eq_true, if_false]
    exact ih (fun x hx => h x (List.mem_cons_of_mem _ hx))

/-- C10: a present metric control none of whose spans has a stripped text
that is non-empty and all digits or containing one of the exact characters
K, M, 万, comma makes the extractor pass the empty string to the normalizer,
and the metric is 0; the detection is case-sensitive, so a span reading
"10k" is skipped and the metric is 0. -/
theorem metric_detection_case (spans : List String) (u d : String) (nr : NodeRest)
    (h : ∀ s ∈ spans, looksMetric (trimChars s.data) = false)
    (hnr : nr.likeSpans = some spans) :
    pickMetricText spans = "" ∧ metricOfSpans (some spans) = some 0 ∧
      (∀ p, buildPost u d nr = some p → p.likes = 0) ∧
      looksMetric (trimChars "10k".data) = false ∧
      metricOfSpans (some ["10k"]) = some 0 := by
  have h1 := pickMetricText_all_fail spans h
  have hms : metricOfSpans (some spans) = some 0 := by
    simp only [metricOfSpans, h1]
    decide
  refine ⟨h1, hms, ?_, by decide, by decide⟩
  intro p hp
  unfold buildPost at hp
  rw [hnr, hms] at hp
  rcases hr2 : metricOfSpans nr.repostSpans with _ | rv <;> rw [hr2] at hp
  · exact absurd hp (by simp)
  · rcases hv : metricOfSpans nr.viewSpans with _ | vv <;> rw [hv] at hp
    · exact absurd hp (by simp)
    · simp only [Option.some.injEq] at hp
      rw [← hp]

theorem metric_detection_case_witness :
    pickMetricText ["10k"] = "" ∧ metricOfSpans (some ["10k"]) = some 0 :=
  ⟨(metric_detection_case ["10k"] "https://x.com/a/status/1" "2025-10-01"
      ⟨"@a", "A", "t", "", some ["10k"], none, none⟩ (by decide) rfl).1,
    (metric_detection_case ["10k"] "https://x.com/a/status/1" "2025-10-01"
      ⟨"@a", "A", "t", "", some ["10k"], none, none⟩ (by decide) rfl).2.1⟩

/-! ## Claim C9 -/

/-- C9: an exception raised by the crawl body (the Browser Agent becoming
unusable) propagates out of the crawl loop to the enclosing handler of
`scrape_buzzed_posts` and is observed there, and on every exit path —
success or failure — the finally block releases the WebDriver whenever one
was created. -/
theorem session_cleanup {ε α : Type} (setup : Except ε Unit) (crawl : Except ε α) (e : ε)
    (hs : setup = Except.ok ()) (hc : crawl = Except.error e) :
    (scrape_session setup crawl).outcome = TryOutcome.caught e ∧
      (∀ (s : Except ε Unit) (cr : Except ε α),
        (scrape_session s cr).driverCreated = true →
          (scrape_session s cr).driverReleased = true) := by
  constructor
  · rw [hs, hc]
    rfl
  · intro s cr
    cases s with
    | error e2 =>
      intro hcr
      simp [scrape_session] at hcr
    | ok v =>
      cases cr with
      | error e2 => intro _; rfl
      | ok a => intro _; rfl

theorem session_cleanup_witness :
    (scrape_session (Except.ok () : Except Nat Unit)
        (Except.error 7 : Except Nat Nat)).outcome = TryOutcome.caught 7 ∧
      (scrape_session (Except.ok () : Except Nat Unit)
        (Except.error 7 : Except Nat Nat)).driverReleased = true :=
  ⟨(session_cleanup (Except.ok ()) (Except.error 7) 7 rfl rfl).1,
    (session_cleanup (Except.ok ()) (Except.error 7) 7 rfl rfl).2
      (Except.ok ()) (Except.error 7) rfl⟩
